import Mathlib

/-!
Verification development for the CSVAPI repository.

Shallow embedding of the CSV ingestion pipeline (type detector, column-name
sanitizer, CSV parse completion), the dynamic query-serving engine
(filter/sort/paginate over JSONB rows), the ingestion orchestrator's
batch-insert loop with compensating delete, and the API-key rate-limit
bookkeeping of the GET handler.

JavaScript numbers are modelled exactly: string numerals are parsed to
exact fractions, and numeric `JSValue`s are restricted to integral values
(the repository's data flow only feeds strings, `null`, or Papa-typed
integral scalars into the detector at the points the claims touch).
Float64 rounding, `Infinity`, and `NaN` payloads are outside the model.
-/

/-! ### Character helpers (models of JS string primitives) -/

/-- Decimal digit characters `0`-`9`. -/
def isDigitChar (c : Char) : Bool :=
  decide (48 ≤ c.toNat ∧ c.toNat ≤ 57)

/-- Model of the whitespace class trimmed/skipped by JS `trim`, `parseFloat`
and `parseInt`: space, tab, LF, VT, FF, CR, NBSP. -/
def isJsWS (c : Char) : Bool :=
  decide (c.toNat = 32 ∨ (9 ≤ c.toNat ∧ c.toNat ≤ 13) ∨ c.toNat = 160)

/-- ASCII model of JS `String.prototype.toLowerCase` on one character. -/
def jsToLowerChar (c : Char) : Char :=
  if 65 ≤ c.toNat ∧ c.toNat ≤ 90 then Char.ofNat (c.toNat + 32) else c

/-- ASCII model of JS `String.prototype.toLowerCase`. -/
def jsToLowerStr (s : String) : String :=
  ⟨s.data.map jsToLowerChar⟩

/-- Model of JS `String.prototype.trim`: drop whitespace from both ends. -/
def jsTrim (s : String) : String :=
  ⟨(s.data.dropWhile isJsWS).rdropWhile isJsWS⟩

/-- Value of a list of decimal digit characters read left to right. -/
def digitsToNat (ds : List Char) : Nat :=
  ds.foldl (fun n c => 10 * n + (c.toNat - 48)) 0

/-- Optional signed exponent digits after the `e`/`E` of a JS float literal;
an exponent with no digits contributes nothing (parseFloat stops there). -/
def expDigitsVal (l : List Char) : Int :=
  match l with
  | '-' :: r =>
    let ds := r.takeWhile isDigitChar
    if ds.isEmpty then 0 else -(digitsToNat ds : Int)
  | '+' :: r =>
    let ds := r.takeWhile isDigitChar
    if ds.isEmpty then 0 else (digitsToNat ds : Int)
  | _ =>
    let ds := l.takeWhile isDigitChar
    if ds.isEmpty then 0 else (digitsToNat ds : Int)

/-- Exponent part of a JS float literal: `e`/`E` followed by signed digits. -/
def expPartVal (l : List Char) : Int :=
  match l with
  | 'e' :: r => expDigitsVal r
  | 'E' :: r => expDigitsVal r
  | _ => 0

/-- Exact value of a parsed JS number literal as a fraction `num / den`
with `den` a positive power of ten (not necessarily reduced). -/
structure JsNum where
  num : Int
  den : Nat
deriving DecidableEq

/-- Exact-rational model of JS `parseFloat`: skip leading whitespace, read an
optional sign, integer digits, an optional fraction and an optional exponent,
ignoring any trailing junk; `none` models `NaN` (no digits consumed).
`Infinity` literals and float64 rounding are outside the model. -/
def jsParseFloat (s : String) : Option JsNum :=
  let l0 := s.data.dropWhile isJsWS
  let signed : Bool × List Char :=
    match l0 with
    | '-' :: r => (true, r)
    | '+' :: r => (false, r)
    | _ => (false, l0)
  let neg := signed.1
  let l1 := signed.2
  let intDs := l1.takeWhile isDigitChar
  let l2 := l1.dropWhile isDigitChar
  let fracPart : List Char × List Char :=
    match l2 with
    | '.' :: r => (r.takeWhile isDigitChar, r.dropWhile isDigitChar)
    | _ => ([], l2)
  let fracDs := fracPart.1
  let l3 := fracPart.2
  if intDs.isEmpty && fracDs.isEmpty then none
  else
    let f := fracDs.length
    let mantNum : Int := (digitsToNat intDs * 10 ^ f + digitsToNat fracDs : Nat)
    let e := expPartVal l3
    let scaled : Int × Nat :=
      if 0 ≤ e then (mantNum * 10 ^ e.toNat, 10 ^ f)
      else (mantNum, 10 ^ f * 10 ^ (-e).toNat)
    some { num := if neg then -scaled.1 else scaled.1, den := scaled.2 }

/-! ### JS values reaching the type detector -/

/-- Scalar values the detector receives (`any[]` in the source): strings,
integral numbers, booleans, `null` and `undefined`. -/
inductive JSValue where
  | vNull
  | vUndefined
  | vBool (b : Bool)
  | vNum (n : Int)
  | vStr (s : String)
deriving DecidableEq

/-- Model of JS `String(value)` for the values of the model. -/
def jsString : JSValue → String
  | .vNull => "null"
  | .vUndefined => "undefined"
  | .vBool b => if b then "true" else "false"
  | .vNum n => toString n
  | .vStr s => s

/-- Model of JS falsiness for the values of the model (`!value`). -/
def jsFalsy : JSValue → Bool
  | .vNull => true
  | .vUndefined => true
  | .vBool b => !b
  | .vNum n => n == 0
  | .vStr s => s == ""

/-! ### Date patterns (src/lib/csv/type-detector.ts, isValidDate) -/

/-- Character at position `i` is a decimal digit. -/
def digitAt (l : List Char) (i : Nat) : Bool :=
  isDigitChar (l.getD i ' ')

/-- Character at position `i` equals `c`. -/
def charAt (l : List Char) (i : Nat) (c : Char) : Bool :=
  l.getD i ' ' == c

/-- Regex `^\d{4}-\d{2}-\d{2}$` (YYYY-MM-DD). -/
def patDashYMD (l : List Char) : Bool :=
  l.length == 10 && digitAt l 0 && digitAt l 1 && digitAt l 2 && digitAt l 3 &&
    charAt l 4 '-' && digitAt l 5 && digitAt l 6 && charAt l 7 '-' &&
    digitAt l 8 && digitAt l 9

/-- Regex `^\d{2}\/\d{2}\/\d{4}$` (MM/DD/YYYY). -/
def patSlashMDY (l : List Char) : Bool :=
  l.length == 10 && digitAt l 0 && digitAt l 1 && charAt l 2 '/' &&
    digitAt l 3 && digitAt l 4 && charAt l 5 '/' &&
    digitAt l 6 && digitAt l 7 && digitAt l 8 && digitAt l 9

/-- Regex `^\d{2}-\d{2}-\d{4}$` (MM-DD-YYYY). -/
def patDashMDY (l : List Char) : Bool :=
  l.length == 10 && digitAt l 0 && digitAt l 1 && charAt l 2 '-' &&
    digitAt l 3 && digitAt l 4 && charAt l 5 '-' &&
    digitAt l 6 && digitAt l 7 && digitAt l 8 && digitAt l 9

/-- Regex `^\d{4}\/\d{2}\/\d{2}$` (YYYY/MM/DD). -/
def patSlashYMD (l : List Char) : Bool :=
  l.length == 10 && digitAt l 0 && digitAt l 1 && digitAt l 2 && digitAt l 3 &&
    charAt l 4 '/' && digitAt l 5 && digitAt l 6 && charAt l 7 '/' &&
    digitAt l 8 && digitAt l 9

/-- Disjunction of the four fixed date patterns (`datePatterns.some`). -/
def matchesAnyDatePattern (l : List Char) : Bool :=
  patDashYMD l || patSlashMDY l || patDashMDY l || patSlashYMD l

/-- Numeric value of the two digits at positions `i`, `i+1`. -/
def num2 (l : List Char) (i : Nat) : Nat :=
  10 * ((l.getD i '0').toNat - 48) + ((l.getD (i + 1) '0').toNat - 48)

/-- Numeric value of the four digits starting at position `i`. -/
def num4 (l : List Char) (i : Nat) : Nat :=
  100 * num2 l i + num2 l (i + 2)

/-- Gregorian leap-year rule. -/
def isLeapYear (y : Nat) : Bool :=
  (y % 4 == 0 && !(y % 100 == 0)) || y % 400 == 0

/-- Days in a month of a given year. -/
def daysInMonth (y m : Nat) : Nat :=
  if m == 2 then (if isLeapYear y then 29 else 28)
  else if m == 4 || m == 6 || m == 9 || m == 11 then 30
  else 31

/-- Validity of the month/day fields under the legacy (non-ISO) JS date
parser: month 1-12 and day 1-31 (day overflow past the month length rolls
over to the next month but still yields a valid `Date`). -/
def legacyMDOk (m d : Nat) : Bool :=
  decide (1 ≤ m) && decide (m ≤ 12) && decide (1 ≤ d) && decide (d ≤ 31)

/-- Model of `!isNaN(new Date(str).getTime())` for pattern-matching strings:
the ISO `YYYY-MM-DD` form requires a real calendar date; the three legacy
forms accept month 1-12 and day 1-31. -/
def jsDateParseOk (l : List Char) : Bool :=
  if patDashYMD l then
    let y := num4 l 0
    let m := num2 l 5
    let d := num2 l 8
    decide (1 ≤ m) && decide (m ≤ 12) && decide (1 ≤ d) && decide (d ≤ daysInMonth y m)
  else if patSlashMDY l then legacyMDOk (num2 l 0) (num2 l 3)
  else if patDashMDY l then legacyMDOk (num2 l 0) (num2 l 3)
  else if patSlashYMD l then legacyMDOk (num2 l 5) (num2 l 8)
  else false

/-- Body of `isValidDate` applied to `String(value)`: trim, test the fixed
patterns, then check that `new Date(str)` parses to a valid date. -/
def dateStrOk (s : String) : Bool :=
  matchesAnyDatePattern (jsTrim s).data && jsDateParseOk (jsTrim s).data

/-! ### Validators of src/lib/csv/type-detector.ts -/

/-- Embedding of `isValidDate`: falsy values fail; otherwise the trimmed
string form must match a fixed date pattern and parse to a valid date. -/
def isValidDate (v : JSValue) : Bool :=
  !jsFalsy v && dateStrOk (jsString v)

/-- Token list of `isValidBoolean`. -/
def boolTokens : List String :=
  ["true", "false", "yes", "no", "1", "0", "y", "n"]

/-- Embedding of `isValidBoolean`. -/
def isValidBoolean (v : JSValue) : Bool :=
  match v with
  | .vBool _ => true
  | .vNum n => n == 0 || n == 1
  | .vStr s => boolTokens.contains (jsTrim (jsToLowerStr s))
  | _ => false

/-- Embedding of `isValidInteger`: numbers are integral in the model; a
string containing `-`, `/` or `.` is disqualified; otherwise `parseFloat`
must yield an integer whose decimal form round-trips to the trimmed input. -/
def isValidInteger (v : JSValue) : Bool :=
  match v with
  | .vNum _ => true
  | .vStr s =>
    if s.data.contains '-' || s.data.contains '/' || s.data.contains '.' then false
    else
      match jsParseFloat s with
      | none => false
      | some q =>
        q.num % (q.den : Int) == 0 && toString (q.num / (q.den : Int)) == jsTrim s
  | _ => false

/-- Embedding of `isValidNumber`: `parseFloat` does not yield `NaN`. -/
def isValidNumber (v : JSValue) : Bool :=
  match v with
  | .vNum _ => true
  | .vStr s => (jsParseFloat s).isSome
  | _ => false

/-- Column types inferred by the detector. -/
inductive ColumnType where
  | INTEGER
  | FLOAT
  | DATE
  | BOOLEAN
  | TEXT
deriving DecidableEq

/-- Embedding of `detectColumnType` (src/lib/csv/type-detector.ts): sample
the first 100 non-null, non-empty values and apply the rules in order
DATE, BOOLEAN, INTEGER, FLOAT, default TEXT. -/
def detectColumnType (values : List JSValue) : ColumnType :=
  if values = [] then .TEXT
  else
    let sampleValues :=
      (values.filter fun v =>
        !(v == JSValue.vNull) && !(v == JSValue.vUndefined) && !(v == JSValue.vStr "")).take 100
    if sampleValues = [] then .TEXT
    else if sampleValues.all isValidDate then .DATE
    else if sampleValues.all isValidBoolean then .BOOLEAN
    else if sampleValues.all isValidInteger then .INTEGER
    else if sampleValues.all isValidNumber then .FLOAT
    else .TEXT

/-! ### Column-name sanitizer (src/lib/csv/type-detector.ts) -/

/-- Characters kept by the sanitizer's `[^a-z0-9_]` replacement. -/
def isAllowedChar (c : Char) : Bool :=
  decide ((97 ≤ c.toNat ∧ c.toNat ≤ 122) ∨ (48 ≤ c.toNat ∧ c.toNat ≤ 57) ∨ c.toNat = 95)

/-- Regex `_{2,}` replaced by `_`: collapse every run of underscores. -/
def collapseUnderscores : List Char → List Char
  | [] => []
  | [c] => [c]
  | a :: b :: rest =>
    if a == '_' && b == '_' then collapseUnderscores (b :: rest)
    else a :: collapseUnderscores (b :: rest)

/-- Embedding of `sanitizeColumnName`: lowercase, replace disallowed
characters by `_`, strip leading/trailing underscores, collapse runs of
underscores, and fall back to `column` when empty. -/
def sanitizeColumnName (name : String) : String :=
  let l1 := name.data.map jsToLowerChar
  let l2 := l1.map fun c => if isAllowedChar c then c else '_'
  let l3 := (l2.dropWhile (· == '_')).rdropWhile (· == '_')
  let l4 := collapseUnderscores l3
  if l4 = [] then "column" else ⟨l4⟩

/-! ### CSV parse completion (src/lib/csv/parser.ts) -/

/-- Column schema entries produced by the parser. -/
structure ColumnSchema where
  name : String
  type : ColumnType
  nullable : Bool
deriving DecidableEq

/-- Row objects produced by Papa with `header: true`. -/
abbrev ParsedRow := List (String × JSValue)

/-- Model of JS property access `row[col]`: `undefined` when absent. -/
def jsGet (row : ParsedRow) (col : String) : JSValue :=
  match row.lookup col with
  | some v => v
  | none => .vUndefined

/-- Result shape of `parseCSV`. -/
structure ParsedCSV where
  data : List ParsedRow
  schema : List ColumnSchema
  rowCount : Nat
  errors : List String
deriving DecidableEq

/-- Embedding of the `complete` callback of `parseCSV`: propagate Papa error
messages, report zero data rows with an explanatory error string, otherwise
infer the schema per column over the full value sequence. -/
def parseCSVComplete (rawData : List ParsedRow) (papaErrors : List String) : ParsedCSV :=
  if papaErrors ≠ [] then
    { data := [], schema := [], rowCount := 0, errors := papaErrors }
  else if rawData = [] then
    { data := [], schema := [], rowCount := 0, errors := ["No data found in CSV"] }
  else
    let columns := (rawData.headD []).map Prod.fst
    let schema := columns.map fun col =>
      let values := rawData.map fun row => jsGet row col
      { name := sanitizeColumnName col
        , type := detectColumnType values
        , nullable := values.any fun v =>
            v == JSValue.vNull || v == JSValue.vUndefined || v == JSValue.vStr "" }
    { data := rawData, schema := schema, rowCount := rawData.length, errors := [] }

/-- The promise returned by `parseCSV`: the completion logic always resolves
(`Except.ok`); rejection happens only on a thrown exception or a Papa stream
error, neither of which the pure completion code produces. -/
def parseCSV (rawData : List ParsedRow) (papaErrors : List String) :
    Except String ParsedCSV :=
  .ok (parseCSVComplete rawData papaErrors)

/-! ### Stored rows and JSONB text extraction -/

/-- JSON values stored in the `data` JSONB column of `csv_data`. -/
inductive JsonVal where
  | jStr (s : String)
  | jNum (n : Int)
  | jBool (b : Bool)
  | jNull
deriving DecidableEq

/-- One JSONB object (insertion-ordered field list). -/
abbrev RowData := List (String × JsonVal)

/-- One row of the `csv_data` table. -/
structure CsvRow where
  dataset_id : Nat
  row_number : Nat
  data : RowData
deriving DecidableEq

/-- Model of the Postgres `data->>field` operator: the field's value as text,
SQL `NULL` (`none`) for JSON `null` or a missing key. -/
def extractText (d : RowData) (f : String) : Option String :=
  match d.lookup f with
  | some (.jStr s) => some s
  | some (.jNum n) => some (toString n)
  | some (.jBool b) => some (if b then "true" else "false")
  | some .jNull => none
  | none => none

/-- Lexicographic (codepoint) order on character lists: the text ordering
Postgres applies when comparing `data->>field` with a literal. -/
def lexLeChars : List Char → List Char → Bool
  | [], _ => true
  | _ :: _, [] => false
  | a :: as, b :: bs =>
    if a.toNat < b.toNat then true
    else if b.toNat < a.toNat then false
    else lexLeChars as bs

/-- Text comparison used by the `gte`/`lte` filters. -/
def textLe (a b : String) : Bool :=
  lexLeChars a.data b.data

/-! ### Query parameter parsing (parseQueryParams) -/

/-- Model of JS `parseInt` in base 10: `none` models `NaN`. -/
def jsParseInt (s : String) : Option Int :=
  let l0 := s.data.dropWhile isJsWS
  match l0 with
  | '-' :: r =>
    let ds := r.takeWhile isDigitChar
    if ds.isEmpty then none else some (-(digitsToNat ds : Int))
  | '+' :: r =>
    let ds := r.takeWhile isDigitChar
    if ds.isEmpty then none else some (digitsToNat ds : Int)
  | _ =>
    let ds := l0.takeWhile isDigitChar
    if ds.isEmpty then none else some (digitsToNat ds : Int)

/-- Model of `URLSearchParams.get`: first value for the key, else null. -/
def spGet (ps : List (String × String)) (k : String) : Option String :=
  ps.lookup k

/-- Model of `x || d` for a string-or-null `x`. -/
def orDefault (v : Option String) (d : String) : String :=
  match v with
  | some s => if s == "" then d else s
  | none => d

/-- One query filter: exact match or a range with optional bounds. -/
inductive FilterVal where
  | exact (v : String)
  | range (lo hi : Option String)
deriving DecidableEq

/-- Parameter names never treated as filters. -/
def reservedParams : List String :=
  ["page", "limit", "sort", "order", "q", "fields"]

/-- Model of JS `key.endsWith(suf)`. -/
def strEndsWith (k suf : String) : Bool :=
  suf.data.isSuffixOf k.data

/-- Strip a `_min`/`_max` suffix (regex replace of the 4-character suffix). -/
def stripMinMax (k : String) : String :=
  ⟨k.data.take (k.length - 4)⟩

/-- Record a `_min`/`_max` bound on `field`, mirroring the JS object update:
create `{}` when the slot is empty or falsy, set the bound when a range is
already there, and silently do nothing when a (truthy) string occupies the
slot, since JS property assignment on a primitive is a no-op. -/
def addRangePart (fs : List (String × FilterVal)) (field : String) (isMin : Bool)
    (v : String) : List (String × FilterVal) :=
  let fresh : FilterVal :=
    .range (if isMin then some v else none) (if isMin then none else some v)
  match fs.lookup field with
  | none => fs ++ [(field, fresh)]
  | some (.range lo hi) =>
    fs.map fun p =>
      if p.1 == field then
        (field, .range (if isMin then some v else lo) (if isMin then hi else some v))
      else p
  | some (.exact w) =>
    if w == "" then fs.map fun p => if p.1 == field then (field, fresh) else p
    else fs

/-- Record an equality filter (`params.filters[key] = value`). -/
def setExact (fs : List (String × FilterVal)) (k v : String) :
    List (String × FilterVal) :=
  if (fs.lookup k).isSome then fs.map fun p => if p.1 == k then (k, .exact v) else p
  else fs ++ [(k, .exact v)]

/-- Fold of the `searchParams.forEach` filter extraction, in parameter order. -/
def buildFilters : List (String × String) → List (String × FilterVal) →
    List (String × FilterVal)
  | [], fs => fs
  | (k, v) :: rest, fs =>
    if reservedParams.contains k then buildFilters rest fs
    else if strEndsWith k "_min" then buildFilters rest (addRangePart fs (stripMinMax k) true v)
    else if strEndsWith k "_max" then buildFilters rest (addRangePart fs (stripMinMax k) false v)
    else buildFilters rest (setExact fs k v)

/-- Parsed query parameters (`parseQueryParams` result). `none` for
`page`/`limit` models `NaN` from `parseInt`. -/
structure QueryParams where
  page : Option Int
  limit : Option Int
  sort : Option String
  order : String
  search : Option String
  fields : Option (List String)
  filters : List (String × FilterVal)
deriving DecidableEq

/-- Embedding of `parseQueryParams`. -/
def parseQueryParams (ps : List (String × String)) : QueryParams :=
  { page := jsParseInt (orDefault (spGet ps "page") "1")
  , limit := (jsParseInt (orDefault (spGet ps "limit") "100")).map fun n => min n 1000
  , sort := spGet ps "sort"
  , order := orDefault (spGet ps "order") "asc"
  , search := spGet ps "q"
  , fields := (spGet ps "fields").map fun s => (s.splitOn ",").map jsTrim
  , filters := buildFilters ps [] }

/-! ### Query execution (executeQuery) -/

/-- Application of one filter entry: `eq`, or `gte`/`lte` with each bound
applied only when truthy; a SQL `NULL` extraction satisfies no comparison. -/
def applyOneFilter (f : String) (fv : FilterVal) (rs : List CsvRow) : List CsvRow :=
  match fv with
  | .exact v => rs.filter fun r => extractText r.data f == some v
  | .range lo hi =>
    let rs1 :=
      match lo with
      | some m =>
        if m == "" then rs
        else rs.filter fun r =>
          match extractText r.data f with
          | some t => textLe m t
          | none => false
      | none => rs
    match hi with
    | some m =>
      if m == "" then rs1
      else rs1.filter fun r =>
        match extractText r.data f with
        | some t => textLe t m
        | none => false
    | none => rs1

/-- All filters, in insertion order (conjunction). -/
def applyFilters (rs : List CsvRow) (fs : List (String × FilterVal)) : List CsvRow :=
  fs.foldl (fun acc p => applyOneFilter p.1 p.2 acc) rs

/-- Whether `pat` is an initial segment of `l`. -/
def startsWithChars : List Char → List Char → Bool
  | [], _ => true
  | _ :: _, [] => false
  | a :: as, b :: bs => a == b && startsWithChars as bs

/-- Whether `n` occurs as a contiguous sublist of the second argument. -/
def isSubChars (n : List Char) : List Char → Bool
  | [] => n.isEmpty
  | h :: t => startsWithChars n (h :: t) || isSubChars n t

/-- Model of SQL `ilike '%needle%'`: case-insensitive substring. -/
def containsCI (hay needle : String) : Bool :=
  isSubChars (needle.data.map jsToLowerChar) (hay.data.map jsToLowerChar)

/-- Free-text search: an `or` of `ilike` conditions over the schema's
text-typed columns, skipped entirely when there are none. -/
def applySearch (schema : List (String × String)) (search : Option String)
    (rs : List CsvRow) : List CsvRow :=
  match search with
  | none => rs
  | some s =>
    if s == "" then rs
    else
      let textCols := (schema.map Prod.fst).filter fun k =>
        schema.lookup k == some "text" || schema.lookup k == some "string"
      if textCols.isEmpty then rs
      else rs.filter fun r => textCols.any fun k =>
        match extractText r.data k with
        | some t => containsCI t s
        | none => false

/-- Insert into a sorted list (used to model the SQL `ORDER BY` result). -/
def insertSorted (le : α → α → Bool) (x : α) : List α → List α
  | [] => [x]
  | y :: ys => if le x y then x :: y :: ys else y :: insertSorted le x ys

/-- Deterministic refinement of the SQL `ORDER BY` output. -/
def sortByLe (le : α → α → Bool) : List α → List α
  | [] => []
  | x :: xs => insertSorted le x (sortByLe le xs)

/-- Comparator for `ORDER BY data->>f`: text order on the extracted value,
with SQL null placement (`ASC NULLS LAST`, `DESC NULLS FIRST`). -/
def textKeyLe (f : String) (asc : Bool) (r1 r2 : CsvRow) : Bool :=
  match extractText r1.data f, extractText r2.data f with
  | some a, some b => if asc then textLe a b else textLe b a
  | some _, none => asc
  | none, some _ => !asc
  | none, none => true

/-- Comparator for the default `ORDER BY row_number`. -/
def rowNumLe (r1 r2 : CsvRow) : Bool :=
  decide (r1.row_number ≤ r2.row_number)

/-- Sorting step of `executeQuery`: `data->>sort` when `sort` is truthy,
`row_number` ascending otherwise. No schema validation is performed. -/
def sortRows (params : QueryParams) (rs : List CsvRow) : List CsvRow :=
  match params.sort with
  | some s =>
    if s == "" then sortByLe rowNumLe rs
    else sortByLe (textKeyLe s (params.order == "asc")) rs
  | none => sortByLe rowNumLe rs

/-- Result of the awaited supabase query: page rows, the exact count of the
filtered-but-unpaginated set, and the (absent) error. -/
structure QueryResult where
  rows : List CsvRow
  count : Nat
  error : Option String
deriving DecidableEq

/-- The filtered-but-unpaginated row set: dataset restriction, then the
equality/range filters, then free-text search. -/
def filteredRows (table : List CsvRow) (datasetId : Nat) (params : QueryParams)
    (schema : List (String × String)) : List CsvRow :=
  applySearch schema params.search
    (applyFilters (table.filter fun r => r.dataset_id == datasetId) params.filters)

/-- Embedding of `executeQuery`: filters, search, sort, then the
`range(from, from+limit-1)` page slice, with `count: 'exact'` counting the
filtered set. `none` models the failing request produced when `page` or
`limit` parsed to `NaN`; out-of-range negative offsets are outside the
claims and are clamped. -/
def executeQuery (table : List CsvRow) (datasetId : Nat) (params : QueryParams)
    (schema : List (String × String)) : Option QueryResult :=
  match params.page, params.limit with
  | some p, some l =>
    let filtered := filteredRows table datasetId params schema
    let sorted := sortRows params filtered
    let fromIdx := ((p - 1) * l).toNat
    some { rows := (sorted.drop fromIdx).take l.toNat
         , count := filtered.length
         , error := none }
  | _, _ => none

/-! ### GET response assembly (pagination block of the handler) -/

/-- The `pagination` object of the response body. -/
structure PaginationInfo where
  page : Int
  limit : Int
  total : Nat
  totalPages : Nat
deriving DecidableEq

/-- The successful response body (the parts the claims are about). -/
structure GetResponse where
  success : Bool
  data : List RowData
  pagination : PaginationInfo
deriving DecidableEq

/-- Embedding of the response formatting: `total` is `count || row_count`
(the JS falsy fallback), `totalPages` is `Math.ceil(total / limit)`,
written here as exact integer arithmetic valid for `limit ≥ 1`. -/
def buildGetResponse (datasetRowCount : Nat) (p l : Int) (res : QueryResult) :
    GetResponse :=
  let total := if res.count ≠ 0 then res.count else datasetRowCount
  { success := true
  , data := res.rows.map (·.data)
  , pagination :=
    { page := p, limit := l, total := total
    , totalPages := (((total : Int) + l - 1) / l).toNat } }

/-- Dataset metadata used by the handler. -/
structure DatasetRec where
  id : Nat
  row_count : Nat
deriving DecidableEq

/-- The query-serving tail of the GET handler: parse parameters, execute,
format. `none` models the 500 path for a failing supabase request. -/
def getDatasetResponse (table : List CsvRow) (ds : DatasetRec)
    (schema : List (String × String)) (rawParams : List (String × String)) :
    Option GetResponse :=
  let params := parseQueryParams rawParams
  match params.page, params.limit with
  | some p, some l =>
    (executeQuery table ds.id params schema).map (buildGetResponse ds.row_count p l)
  | _, _ => none

/-! ### API-key rate limiting under concurrency (GET handler) -/

/-- The mutable `api_keys` row fields the handler touches. -/
structure ApiKeyState where
  request_count : Nat
  request_limit_per_month : Nat
deriving DecidableEq

/-- One request's check-and-bill step given the snapshot it previously read:
429 when `snapshot.request_count >= limit`, otherwise serve and write back
`snapshot.request_count + 1` — the written value comes from the snapshot,
not from the current row. -/
def serveAfterRead (current snap : ApiKeyState) : Nat × ApiKeyState :=
  if snap.request_count ≥ snap.request_limit_per_month then (429, current)
  else (200, { current with request_count := snap.request_count + 1 })

/-- Two concurrent requests under the schedule read-read-serve-serve: both
select the row, then each performs its check and update. -/
def twoConcurrentRequests (st : ApiKeyState) : (Nat × Nat) × ApiKeyState :=
  let snapA := st
  let snapB := st
  let resA := serveAfterRead st snapA
  let resB := serveAfterRead resA.2 snapB
  ((resA.1, resB.1), resB.2)

/-- The same two requests fully serialized (each reads the other's write). -/
def twoSequentialRequests (st : ApiKeyState) : (Nat × Nat) × ApiKeyState :=
  let resA := serveAfterRead st st
  let resB := serveAfterRead resA.2 resA.2
  ((resA.1, resB.1), resB.2)

/-! ### Ingestion orchestrator (src/app/api/upload/route.ts) -/

/-- The slice of the database the insert loop touches: dataset ids and
`csv_data` child rows. -/
structure IngestDb where
  datasets : List Nat
  csvData : List CsvRow
deriving DecidableEq

/-- Deleting a dataset record removes its `csv_data` children through the
schema's `ON DELETE CASCADE` foreign key. -/
def deleteDatasetCascade (db : IngestDb) (id : Nat) : IngestDb :=
  { datasets := db.datasets.filter fun d => !(d == id)
  , csvData := db.csvData.filter fun r => !(r.dataset_id == id) }

/-- Bulk insert of one batch. -/
def insertRowsBatch (db : IngestDb) (batch : List CsvRow) : IngestDb :=
  { db with csvData := db.csvData ++ batch }

/-- The `csvRows` mapping: 1-based row numbers over the parsed records. -/
def mkCsvRows (dsId : Nat) (rows : List RowData) : List CsvRow :=
  rows.enum.map fun p => { dataset_id := dsId, row_number := p.1 + 1, data := p.2 }

/-- Chunking of the insert loop (`for i = 0; i < n; i += 500`). -/
def batchesOf500 : List α → List (List α)
  | [] => []
  | a :: l => ((a :: l).take 500) :: batchesOf500 ((a :: l).drop 500)
termination_by l => l.length
decreasing_by
  simp only [List.length_drop, List.length_cons]
  omega

/-- Embedding of the batch-insert loop: `insertOk k` is the outcome the
backend reports for batch `k`; on the first failure the loop deletes the
dataset record (cascading to its rows) and stops with failure. -/
def insertBatchesLoop (insertOk : Nat → Bool) (dsId : Nat) :
    IngestDb → Nat → List (List CsvRow) → IngestDb × Bool
  | db, _, [] => (db, true)
  | db, k, batch :: rest =>
    if insertOk k then insertBatchesLoop insertOk dsId (insertRowsBatch db batch) (k + 1) rest
    else (deleteDatasetCascade db dsId, false)

/-- The whole insert phase of the orchestrator. -/
def runInsertPhase (insertOk : Nat → Bool) (db : IngestDb) (dsId : Nat)
    (csvRows : List CsvRow) : IngestDb × Bool :=
  insertBatchesLoop insertOk dsId db 0 (batchesOf500 csvRows)

/-! ### API key issuance (tail of the upload route) -/

/-- Persisted API key record; the `key_pfx` field embeds the schema column
holding the truncated display form of the key (`key_` + `pre` + `fix`). -/
structure ApiKeyRec where
  project_id : Nat
  name : String
  key_pfx : String
  key_hash : String
  request_limit_per_month : Nat
deriving DecidableEq

/-- Keys recorded for a project. -/
def keysFor (keys : List ApiKeyRec) (pid : Nat) : List ApiKeyRec :=
  keys.filter fun k => k.project_id == pid

/-- The key record the upload route inserts. -/
def mkDefaultKey (pid : Nat) (apiKey apiKeyHash : String) : ApiKeyRec :=
  { project_id := pid
  , name := "Default Key"
  , key_pfx := (⟨apiKey.data.take 12⟩ : String) ++ "..."
  , key_hash := apiKeyHash
  , request_limit_per_month := 1000 }

/-- Embedding of the key-issuance tail of the POST handler: insert the key
record when the backend accepts it (`keyInsertOk`); an insert error is only
logged, and the success response carrying the cleartext key is returned in
either case. -/
def uploadKeyPhase (keys : List ApiKeyRec) (pid : Nat) (apiKey apiKeyHash : String)
    (keyInsertOk : Bool) : List ApiKeyRec × (Bool × String) :=
  ((if keyInsertOk then keys ++ [mkDefaultKey pid apiKey apiKeyHash] else keys)
  , (true, apiKey))

/-- Negative integer literals: a `-` followed by at least one digit. These
are exactly the whole-number strings containing a `-` character. -/
def negIntLit (s : String) : Bool :=
  match s.data with
  | c :: ds => c == '-' && !ds.isEmpty && ds.all isDigitChar
  | [] => false

/-! ### Specification-side definition for the range-filter claim -/

/-- Specification-side reading of a numeric range filter (spec 4.5): keep
exactly the rows whose field value, numerically compared, lies within the
inclusive bounds. Compared against the embedded `applyOneFilter`. -/
def specNumericInRange (a b : Int) (d : RowData) (f : String) : Bool :=
  match d.lookup f with
  | some (.jNum n) => decide (a ≤ n) && decide (n ≤ b)
  | _ => false

/-! ### Theorems -/

/-- C9 (confirmed): an input that parses cleanly but has zero data rows
resolves (does not reject) with an empty schema, empty rows, rowCount 0 and
a non-empty explanatory error string. -/
theorem parseCSV_zero_rows (rawData : List ParsedRow) (papaErrors : List String)
    (h1 : papaErrors = []) (h2 : rawData = []) :
    parseCSV rawData papaErrors =
      .ok { data := [], schema := [], rowCount := 0, errors := ["No data found in CSV"] } ∧
    ("No data found in CSV" : String) ≠ "" := by
  subst h1; subst h2
  exact ⟨rfl, by decide⟩

/-- Witness for C9 at the concrete empty input. -/
theorem parseCSV_zero_rows_witness :
    parseCSV [] [] =
      .ok { data := [], schema := [], rowCount := 0, errors := ["No data found in CSV"] } ∧
    ("No data found in CSV" : String) ≠ "" :=
  parseCSV_zero_rows [] [] rfl rfl

/-- C7 counterexample: a run in which the api-key insert fails still returns
the success response, with zero keys recorded for the project — the claim
that success is never reported with failed key issuance is false. -/
theorem uploadKeyPhase_failure_still_success :
    (uploadKeyPhase [] 1 "csv_live_0123456789abcdefghij" "hhh" false).2.1 = true ∧
    keysFor (uploadKeyPhase [] 1 "csv_live_0123456789abcdefghij" "hhh" false).1 1 = [] := by
  decide

/-- C7 (corrected): the success response carrying the cleartext key is
returned regardless of the key-insert outcome; when the backend accepts the
insert, exactly one key record — scoped to the owning project, with the
fixed 1000 monthly ceiling, storing only the hash and a truncated display
form — is added, and when it fails nothing is recorded. -/
theorem uploadKeyPhase_spec (keys : List ApiKeyRec) (pid : Nat)
    (apiKey apiKeyHash : String) (keyInsertOk : Bool) :
    (uploadKeyPhase keys pid apiKey apiKeyHash keyInsertOk).2.1 = true ∧
    (uploadKeyPhase keys pid apiKey apiKeyHash keyInsertOk).2.2 = apiKey ∧
    keysFor (uploadKeyPhase keys pid apiKey apiKeyHash keyInsertOk).1 pid =
      (if keyInsertOk then keysFor keys pid ++ [mkDefaultKey pid apiKey apiKeyHash]
       else keysFor keys pid) ∧
    (mkDefaultKey pid apiKey apiKeyHash).request_limit_per_month = 1000 := by
  refine ⟨rfl, rfl, ?_, rfl⟩
  cases keyInsertOk <;> simp [uploadKeyPhase, keysFor, mkDefaultKey]

/-- C2 (code bug): with `request_count = limit - 1 = 999` the schedule that
lets both concurrent requests read before either writes serves both with
200 and leaves the counter at the value a single request would have
produced, while serialized execution serves exactly one request — the
check-and-increment is a plain read-then-write, not an atomic
read-modify-write. -/
theorem twoConcurrentRequests_both_succeed :
    twoConcurrentRequests ⟨999, 1000⟩ = ((200, 200), ⟨1000, 1000⟩) ∧
    twoSequentialRequests ⟨999, 1000⟩ = ((200, 429), ⟨1000, 1000⟩) := by
  decide

/-- Rollback property of the insert loop, generalized over the starting
batch index. -/
theorem insertBatchesLoop_failure (insertOk : Nat → Bool) (dsId : Nat) :
    ∀ (batches : List (List CsvRow)) (db : IngestDb) (k0 : Nat),
      (∃ j, j < batches.length ∧ insertOk (k0 + j) = false) →
      (insertBatchesLoop insertOk dsId db k0 batches).2 = false ∧
      dsId ∉ (insertBatchesLoop insertOk dsId db k0 batches).1.datasets ∧
      ∀ r ∈ (insertBatchesLoop insertOk dsId db k0 batches).1.csvData,
        r.dataset_id ≠ dsId := by
  intro batches
  induction batches with
  | nil =>
    rintro db k0 ⟨j, hj, _⟩
    exact absurd hj (by simp)
  | cons b rest ih =>
    rintro db k0 ⟨j, hj, hf⟩
    by_cases hok : insertOk k0 = true
    · have hj0 : j ≠ 0 := by
        rintro rfl
        rw [Nat.add_zero] at hf
        rw [hok] at hf
        cases hf
      obtain ⟨j', rfl⟩ := Nat.exists_eq_succ_of_ne_zero hj0
      have hrest : ∃ j, j < rest.length ∧ insertOk (k0 + 1 + j) = false := by
        refine ⟨j', ?_, ?_⟩
        · simpa using Nat.lt_of_succ_lt_succ (by simpa using hj)
        · have : k0 + 1 + j' = k0 + (j' + 1) := by omega
          rw [this]; exact hf
      have := ih (insertRowsBatch db b) (k0 + 1) hrest
      simpa [insertBatchesLoop, hok] using this
    · rw [Bool.not_eq_true] at hok
      constructor
      · simp [insertBatchesLoop, hok]
      constructor
      · simp [insertBatchesLoop, hok, deleteDatasetCascade]
      · intro r hr
        simp [insertBatchesLoop, hok, deleteDatasetCascade] at hr
        exact hr.2

/-- C1 (confirmed): whenever some batch of the insert loop fails, the
orchestrator ends in failure with the dataset record deleted and, through
the `ON DELETE CASCADE` of `csv_data.dataset_id`, no stored row of that
dataset visible — the whole logical ingestion is rolled back, not just the
failing batch. -/
theorem runInsertPhase_rollback (insertOk : Nat → Bool) (db : IngestDb) (dsId : Nat)
    (csvRows : List CsvRow)
    (h : ∃ k, k < (batchesOf500 csvRows).length ∧ insertOk k = false) :
    (runInsertPhase insertOk db dsId csvRows).2 = false ∧
    dsId ∉ (runInsertPhase insertOk db dsId csvRows).1.datasets ∧
    ∀ r ∈ (runInsertPhase insertOk db dsId csvRows).1.csvData, r.dataset_id ≠ dsId := by
  refine insertBatchesLoop_failure insertOk dsId (batchesOf500 csvRows) db 0 ?_
  obtain ⟨k, hk, hf⟩ := h
  exact ⟨k, hk, by simpa using hf⟩

/-- Witness for C1: a one-row upload whose only batch fails. -/
theorem runInsertPhase_rollback_witness :
    (runInsertPhase (fun _ => false) ⟨[5], []⟩ 5
      (mkCsvRows 5 [[("a", JsonVal.jStr "x")]])).2 = false ∧
    5 ∉ (runInsertPhase (fun _ => false) ⟨[5], []⟩ 5
      (mkCsvRows 5 [[("a", JsonVal.jStr "x")]])).1.datasets ∧
    ∀ r ∈ (runInsertPhase (fun _ => false) ⟨[5], []⟩ 5
      (mkCsvRows 5 [[("a", JsonVal.jStr "x")]])).1.csvData, r.dataset_id ≠ 5 :=
  runInsertPhase_rollback (fun _ => false) ⟨[5], []⟩ 5 _
    ⟨0, by simp [batchesOf500, mkCsvRows], rfl⟩

/-- C5 counterexample: a request sorting by a column absent from the schema
(and from every row) is not rejected — the engine returns a successful
result with the rows, refuting the claimed `QueryError`. -/
theorem executeQuery_unknown_sort_counterexample :
    executeQuery
      [⟨1, 1, [("a", JsonVal.jNum 1)]⟩, ⟨1, 2, [("a", JsonVal.jNum 2)]⟩] 1
      (parseQueryParams [("sort", "nope")]) [("a", "integer")] =
      some { rows := [⟨1, 1, [("a", JsonVal.jNum 1)]⟩, ⟨1, 2, [("a", JsonVal.jNum 2)]⟩]
           , count := 2, error := none } := by
  decide

/-- C5 (corrected): the engine never validates `sort` against the schema —
for a sort column not among the schema's names the query still executes,
producing no error and the exact filtered count; the unknown column is
passed through to the order-by step (which treats the missing field as
null). The schema hypothesis is not even consulted by the proof, because
the code path never reads the schema when sorting. -/
theorem executeQuery_unknown_sort_passthrough (table : List CsvRow) (datasetId : Nat)
    (params : QueryParams) (schema : List (String × String)) (p l : Int) (f : String)
    (hp : params.page = some p) (hl : params.limit = some l)
    (hs : params.sort = some f) (hnotin : f ∉ schema.map Prod.fst) :
    ∃ res, executeQuery table datasetId params schema = some res ∧
      res.error = none ∧
      res.count = (filteredRows table datasetId params schema).length := by
  refine ⟨⟨((sortRows params (filteredRows table datasetId params schema)).drop
      ((p - 1) * l).toNat).take l.toNat,
      (filteredRows table datasetId params schema).length, none⟩, ?_, rfl, rfl⟩
  simp only [executeQuery, hp, hl]

/-- Witness for C5 at a concrete request with an unknown sort column. -/
theorem executeQuery_unknown_sort_passthrough_witness :
    ∃ res, executeQuery
        [⟨1, 1, [("a", JsonVal.jNum 1)]⟩, ⟨1, 2, [("a", JsonVal.jNum 2)]⟩] 1
        (parseQueryParams [("sort", "zzz")]) [("a", "integer")] = some res ∧
      res.error = none ∧
      res.count = (filteredRows
        [⟨1, 1, [("a", JsonVal.jNum 1)]⟩, ⟨1, 2, [("a", JsonVal.jNum 2)]⟩] 1
        (parseQueryParams [("sort", "zzz")]) [("a", "integer")]).length :=
  executeQuery_unknown_sort_passthrough _ 1 _ _ 1 100 "zzz"
    (by decide) (by decide) (by decide) (by decide)

/-- C4 counterexample: with a filter matching zero of the dataset's three
rows, the response reports `total = 3` (the dataset's unfiltered row count)
while the filtered-but-unpaginated set is empty — `total` does not count
the filtered set, because `count || dataset.row_count` falls back on the
falsy count 0. -/
theorem getDatasetResponse_total_fallback_counterexample :
    ((getDatasetResponse
        [⟨1, 1, [("x", JsonVal.jStr "a")]⟩, ⟨1, 2, [("x", JsonVal.jStr "b")]⟩,
         ⟨1, 3, [("x", JsonVal.jStr "c")]⟩] ⟨1, 3⟩ [("x", "text")]
        [("x", "zzz")]).map fun resp => resp.pagination.total) = some 3 ∧
    (filteredRows
        [⟨1, 1, [("x", JsonVal.jStr "a")]⟩, ⟨1, 2, [("x", JsonVal.jStr "b")]⟩,
         ⟨1, 3, [("x", JsonVal.jStr "c")]⟩] 1
        (parseQueryParams [("x", "zzz")]) [("x", "text")]).length = 0 := by
  decide

/-- Conversion between the handler's integer ceiling arithmetic and the
natural ceiling division. -/
theorem intCeil_toNat_eq_ceilDiv (t : Nat) (l : Int) (hl : 1 ≤ l) :
    (((t : Int) + l - 1) / l).toNat = t ⌈/⌉ l.toNat := by
  obtain ⟨m, rfl⟩ : ∃ m : Nat, (m : Int) = l := ⟨l.toNat, by omega⟩
  rw [Nat.ceilDiv_eq_add_pred_div]
  have h : ((t : Int) + (m : Int) - 1) = ((t + m - 1 : Nat) : Int) := by omega
  rw [h, ← Int.ofNat_ediv, Int.toNat_ofNat, Int.toNat_ofNat]

/-- C4 (corrected): for valid `(page, limit)` with `limit ≤ 1000`, the
response's `totalPages` equals `ceil(total / limit)` and the number of
returned rows never exceeds `limit`; but `total` equals the filtered count
only when that count is non-zero — a zero filtered count falls back to the
dataset's unfiltered `row_count`. -/
theorem getDatasetResponse_pagination (table : List CsvRow) (ds : DatasetRec)
    (schema : List (String × String)) (rawParams : List (String × String)) (p l : Int)
    (hp : (parseQueryParams rawParams).page = some p)
    (hl : (parseQueryParams rawParams).limit = some l)
    (h1 : 1 ≤ l) (h2 : l ≤ 1000) :
    ∃ resp, getDatasetResponse table ds schema rawParams = some resp ∧
      resp.pagination.total =
        (if (filteredRows table ds.id (parseQueryParams rawParams) schema).length ≠ 0
         then (filteredRows table ds.id (parseQueryParams rawParams) schema).length
         else ds.row_count) ∧
      resp.pagination.totalPages = resp.pagination.total ⌈/⌉ l.toNat ∧
      (resp.data.length : Int) ≤ l := by
  have hq : executeQuery table ds.id (parseQueryParams rawParams) schema =
      some ⟨((sortRows (parseQueryParams rawParams)
          (filteredRows table ds.id (parseQueryParams rawParams) schema)).drop
          ((p - 1) * l).toNat).take l.toNat,
        (filteredRows table ds.id (parseQueryParams rawParams) schema).length, none⟩ := by
    simp only [executeQuery, hp, hl]
  refine ⟨buildGetResponse ds.row_count p l
      ⟨((sortRows (parseQueryParams rawParams)
          (filteredRows table ds.id (parseQueryParams rawParams) schema)).drop
          ((p - 1) * l).toNat).take l.toNat,
        (filteredRows table ds.id (parseQueryParams rawParams) schema).length, none⟩,
    ?_, rfl, ?_, ?_⟩
  · simp only [getDatasetResponse, hp, hl, hq, Option.map_some']
  · simp only [buildGetResponse]
    exact intCeil_toNat_eq_ceilDiv _ _ h1
  · simp only [buildGetResponse]
    rw [List.length_map]
    have hle : (((sortRows (parseQueryParams rawParams)
        (filteredRows table ds.id (parseQueryParams rawParams) schema)).drop
        ((p - 1) * l).toNat).take l.toNat).length ≤ l.toNat := by
      rw [List.length_take]
      exact min_le_left _ _
    omega

/-- Witness for C4 at a concrete dataset and default page/limit. -/
theorem getDatasetResponse_pagination_witness :
    ∃ resp, getDatasetResponse
        [⟨1, 1, [("x", JsonVal.jStr "a")]⟩, ⟨1, 2, [("x", JsonVal.jStr "b")]⟩]
        ⟨1, 2⟩ [("x", "text")] [] = some resp ∧
      resp.pagination.total =
        (if (filteredRows
            [⟨1, 1, [("x", JsonVal.jStr "a")]⟩, ⟨1, 2, [("x", JsonVal.jStr "b")]⟩] 1
            (parseQueryParams []) [("x", "text")]).length ≠ 0
         then (filteredRows
            [⟨1, 1, [("x", JsonVal.jStr "a")]⟩, ⟨1, 2, [("x", JsonVal.jStr "b")]⟩] 1
            (parseQueryParams []) [("x", "text")]).length
         else 2) ∧
      resp.pagination.totalPages = resp.pagination.total ⌈/⌉ (100 : Int).toNat ∧
      (resp.data.length : Int) ≤ 100 :=
  getDatasetResponse_pagination
    [⟨1, 1, [("x", JsonVal.jStr "a")]⟩, ⟨1, 2, [("x", JsonVal.jStr "b")]⟩]
    ⟨1, 2⟩ [("x", "text")] [] 1 100 (by decide) (by decide) (by decide) (by decide)

/-- C3 counterexample: with `price_min=100&price_max=500` on an
integer-typed column, the engine keeps both the row with price 20 and the
row with price 300 (text comparison: `"100" <= "20" <= "500"`), while the
numerically-in-range rows are exactly one — the result is not the set the
claim describes. -/
theorem range_filter_not_numeric_counterexample :
    (filteredRows
        [⟨1, 1, [("price", JsonVal.jNum 20)]⟩, ⟨1, 2, [("price", JsonVal.jNum 300)]⟩] 1
        (parseQueryParams [("price_min", "100"), ("price_max", "500")])
        [("price", "integer")]).length = 2 ∧
    (([⟨1, 1, [("price", JsonVal.jNum 20)]⟩, ⟨1, 2, [("price", JsonVal.jNum 300)]⟩] :
        List CsvRow).filter fun r => specNumericInRange 100 500 r.data "price").length
      = 1 := by
  decide

/-- C3 (corrected): a range filter with both bounds present keeps exactly
the rows whose extracted `data->>field` text satisfies the inclusive bounds
under lexicographic string comparison — the bounds are inclusive as
claimed, but the ordering is text order, not the column's numeric order. -/
theorem applyFilters_range_text_order (rs : List CsvRow) (f a b : String)
    (ha : a ≠ "") (hb : b ≠ "") :
    applyFilters rs [(f, .range (some a) (some b))] =
      rs.filter fun r =>
        match extractText r.data f with
        | some t => textLe a t && textLe t b
        | none => false := by
  have ha' : (a == "") = false := by simp [ha]
  have hb' : (b == "") = false := by simp [hb]
  simp only [applyFilters, List.foldl_cons, List.foldl_nil, applyOneFilter, ha', hb',
    Bool.false_eq_true, if_false, List.filter_filter]
  apply List.filter_congr
  intro r _
  cases h : extractText r.data f <;> simp [h, Bool.and_comm]

/-- Witness for C3 at the concrete price table and bounds 100/500. -/
theorem applyFilters_range_text_order_witness :
    applyFilters
        [⟨1, 1, [("price", JsonVal.jNum 20)]⟩, ⟨1, 2, [("price", JsonVal.jNum 300)]⟩]
        [("price", FilterVal.range (some "100") (some "500"))] =
      ([⟨1, 1, [("price", JsonVal.jNum 20)]⟩, ⟨1, 2, [("price", JsonVal.jNum 300)]⟩] :
          List CsvRow).filter fun r =>
        match extractText r.data "price" with
        | some t => textLe "100" t && textLe t "500"
        | none => false :=
  applyFilters_range_text_order _ "price" "100" "500" (by decide) (by decide)

/-- An empty string never passes the date check. -/
theorem dateStrOk_ne_empty {s : String} (h : dateStrOk s = true) : s ≠ "" := by
  rintro rfl
  rw [show dateStrOk "" = false from by decide] at h
  cases h

/-- Non-empty strings survive the detector's sampling filter. -/
theorem detect_filter_keeps {s : String} (h : s ≠ "") :
    (!(JSValue.vStr s == JSValue.vNull) && !(JSValue.vStr s == JSValue.vUndefined) &&
      !(JSValue.vStr s == JSValue.vStr "")) = true := by
  simp [h]

/-- The sampling filter keeps every member of a list of non-empty strings. -/
theorem filter_nonempty_strings (ss : List String) (h : ∀ s ∈ ss, s ≠ "") :
    ((ss.map JSValue.vStr).filter fun v =>
      !(v == JSValue.vNull) && !(v == JSValue.vUndefined) && !(v == JSValue.vStr "")) =
      ss.map JSValue.vStr := by
  apply List.filter_eq_self.mpr
  intro v hv
  obtain ⟨s, hs, rfl⟩ := List.mem_map.mp hv
  exact detect_filter_keeps (h s hs)

/-- C6 (confirmed): whenever every value of a non-empty sample set of
strings matches one of the fixed date patterns and parses to a valid
calendar date (the body of `isValidDate`), the detector returns DATE — the
date rule is applied before the numeric rules, so this holds even when
every value also parses as a number (e.g. `2024-01-01`, whose `parseFloat`
is 2024). -/
theorem detectColumnType_all_dates (ss : List String) (h1 : ss ≠ [])
    (h2 : ∀ s ∈ ss, dateStrOk s = true) :
    detectColumnType (ss.map JSValue.vStr) = .DATE := by
  have hne : ∀ s ∈ ss, s ≠ "" := fun s hs => dateStrOk_ne_empty (h2 s hs)
  have hfil := filter_nonempty_strings ss hne
  have hmapne : ss.map JSValue.vStr ≠ [] := by simpa using h1
  have hsample : (ss.map JSValue.vStr).take 100 ≠ [] := by
    cases hss : ss.map JSValue.vStr with
    | nil => exact absurd hss hmapne
    | cons a t => simp
  have halldate : ((ss.map JSValue.vStr).take 100).all isValidDate = true := by
    rw [List.all_eq_true]
    intro v hv
    obtain ⟨s, hs, rfl⟩ := List.mem_map.mp (List.mem_of_mem_take hv)
    show isValidDate (JSValue.vStr s) = true
    simp [isValidDate, jsFalsy, jsString, hne s hs, h2 s hs]
  unfold detectColumnType
  rw [if_neg hmapne]
  simp only [hfil]
  rw [if_neg hsample, if_pos halldate]

/-- Witness for C6: two valid dates, one of them a leap-day, both of which
also parse as numbers via `parseFloat`. -/
theorem detectColumnType_all_dates_witness :
    detectColumnType (["2024-01-01", "2024-02-29"].map JSValue.vStr) = .DATE :=
  detectColumnType_all_dates _ (by decide) (by decide)

/-- Digits are not JS whitespace. -/
theorem digit_not_ws {c : Char} (h : isDigitChar c = true) : isJsWS c = false := by
  simp only [isDigitChar, decide_eq_true_eq] at h
  simp only [isJsWS, decide_eq_false_iff_not]
  omega

/-- Lowercasing fixes every character that is not an ASCII capital. -/
theorem jsToLowerChar_eq_self {c : Char} (h : ¬(65 ≤ c.toNat ∧ c.toNat ≤ 90)) :
    jsToLowerChar c = c := by
  rw [jsToLowerChar, if_neg h]

/-- Shape of a negative-integer literal. -/
theorem negIntLit_spec {s : String} (h : negIntLit s = true) :
    ∃ ds, s.data = '-' :: ds ∧ ds ≠ [] ∧ ds.all isDigitChar = true := by
  unfold negIntLit at h
  cases hsd : s.data with
  | nil => rw [hsd] at h; cases h
  | cons c ds =>
    rw [hsd] at h
    simp only [Bool.and_eq_true, beq_iff_eq, Bool.not_eq_true'] at h
    obtain ⟨⟨hc, hds⟩, hdig⟩ := h
    subst hc
    refine ⟨ds, rfl, ?_, hdig⟩
    simpa using hds

/-- No date pattern matches a string starting with `-`. -/
theorem matchesAnyDatePattern_dash (ds : List Char) :
    matchesAnyDatePattern ('-' :: ds) = false := by
  have h : isDigitChar '-' = false := by decide
  simp [matchesAnyDatePattern, patDashYMD, patSlashMDY, patDashMDY, patSlashYMD,
    digitAt, h]

/-- JS `trim` fixes a `-`-plus-digits string. -/
theorem jsTrim_data_negIntLit {s : String} {ds : List Char} (hd : s.data = '-' :: ds)
    (hne : ds ≠ []) (hdig : ds.all isDigitChar = true) :
    (jsTrim s).data = '-' :: ds := by
  show ((s.data.dropWhile isJsWS).rdropWhile isJsWS) = '-' :: ds
  have h1 : ('-' :: ds).dropWhile isJsWS = '-' :: ds := by
    rw [List.dropWhile_cons, if_neg (by decide)]
  have h2 : ('-' :: ds).rdropWhile isJsWS = '-' :: ds := by
    rw [List.rdropWhile_eq_self_iff]
    intro hl
    have hlast : ('-' :: ds).getLast hl ∈ ds := by
      rw [List.getLast_cons hne]
      exact List.getLast_mem hne
    have := List.all_eq_true.mp hdig _ hlast
    simp [digit_not_ws this]
  rw [hd, h1, h2]

/-- Lowercasing fixes a `-`-plus-digits string. -/
theorem jsToLowerStr_data_negIntLit {s : String} {ds : List Char} (hd : s.data = '-' :: ds)
    (hdig : ds.all isDigitChar = true) :
    (jsToLowerStr s).data = '-' :: ds := by
  show s.data.map jsToLowerChar = '-' :: ds
  rw [hd, List.map_cons]
  have hmap : ds.map jsToLowerChar = ds := by
    have hall : ∀ c ∈ ds, jsToLowerChar c = c := by
      intro c hc
      have hcd := List.all_eq_true.mp hdig _ hc
      simp only [isDigitChar, decide_eq_true_eq] at hcd
      exact jsToLowerChar_eq_self (by omega)
    rw [List.map_congr_left hall]
    simp
  rw [hmap, show jsToLowerChar '-' = '-' from by decide]

/-- No boolean token starts with `-`. -/
theorem boolTokens_contains_dash {t : String} {ds : List Char} (hd : t.data = '-' :: ds) :
    boolTokens.contains t = false := by
  have hne : ∀ u ∈ boolTokens, t ≠ u := by
    intro u hu hc
    have hdd := congrArg String.data hc
    rw [hd] at hdd
    fin_cases hu <;> exact absurd (List.cons.injEq .. ▸ hdd).1 (by decide)
  simp only [boolTokens] at hne ⊢
  simp only [List.contains_cons, List.contains_nil, Bool.or_eq_false_iff,
    beq_eq_false_iff_ne]
  refine ⟨?_, ?_, ?_, ?_, ?_, ?_, ?_, ?_, trivial⟩ <;> simp_all

/-- A `-`-plus-digits string parses to a number under `parseFloat`. -/
theorem jsParseFloat_negIntLit {s : String} {ds : List Char} (hd : s.data = '-' :: ds)
    (hne : ds ≠ []) (hdig : ds.all isDigitChar = true) :
    (jsParseFloat s).isSome = true := by
  have h1 : s.data.dropWhile isJsWS = '-' :: ds := by
    rw [hd, List.dropWhile_cons, if_neg (by decide)]
  have htake : ds.takeWhile isDigitChar = ds :=
    List.takeWhile_eq_self_iff.mpr (fun c hc => List.all_eq_true.mp hdig _ hc)
  have hemp : ds.isEmpty = false := by
    cases ds with
    | nil => exact absurd rfl hne
    | cons a t => rfl
  simp only [jsParseFloat, h1, htake, hemp, Bool.false_and, Bool.false_eq_true,
    if_false, Option.isSome_some]

/-- C10 (confirmed): a non-empty sample set of negative whole-number strings
(whole-number parse, containing `-`) is typed FLOAT, never INTEGER: the `-`
disqualifies the integer rule while `parseFloat` still accepts the value,
and neither the date patterns nor the boolean tokens admit a leading `-`. -/
theorem detectColumnType_neg_int (ss : List String) (h1 : ss ≠ [])
    (h2 : ∀ s ∈ ss, negIntLit s = true) :
    detectColumnType (ss.map JSValue.vStr) = .FLOAT := by
  have hspec : ∀ s ∈ ss, ∃ ds, s.data = '-' :: ds ∧ ds ≠ [] ∧ ds.all isDigitChar = true :=
    fun s hs => negIntLit_spec (h2 s hs)
  have hne : ∀ s ∈ ss, s ≠ "" := by
    intro s hs hcon
    obtain ⟨ds, hdd, _, _⟩ := hspec s hs
    rw [hcon] at hdd
    exact List.noConfusion hdd
  have hfil := filter_nonempty_strings ss hne
  obtain ⟨s₀, ss', rfl⟩ : ∃ s₀ ss', ss = s₀ :: ss' := by
    cases ss with
    | nil => exact absurd rfl h1
    | cons a t => exact ⟨a, t, rfl⟩
  obtain ⟨ds₀, hd₀, hne₀, hdig₀⟩ := hspec s₀ (by simp)
  have hmapne : (s₀ :: ss').map JSValue.vStr ≠ [] := by simp
  have htake : (JSValue.vStr s₀ :: ss'.map JSValue.vStr).take 100 =
      JSValue.vStr s₀ :: (ss'.map JSValue.vStr).take 99 := rfl
  have hdate0 : isValidDate (JSValue.vStr s₀) = false := by
    have htr := jsTrim_data_negIntLit hd₀ hne₀ hdig₀
    simp only [isValidDate, jsFalsy, jsString, dateStrOk, htr,
      matchesAnyDatePattern_dash, Bool.false_and, Bool.and_false]
  have hbool0 : isValidBoolean (JSValue.vStr s₀) = false := by
    have hlow := jsToLowerStr_data_negIntLit hd₀ hdig₀
    have htr := jsTrim_data_negIntLit hlow hne₀ hdig₀
    show boolTokens.contains (jsTrim (jsToLowerStr s₀)) = false
    exact boolTokens_contains_dash htr
  have hint0 : isValidInteger (JSValue.vStr s₀) = false := by
    show (if s₀.data.contains '-' || s₀.data.contains '/' || s₀.data.contains '.'
      then false
      else match jsParseFloat s₀ with
        | none => false
        | some q =>
          q.num % (q.den : Int) == 0 && toString (q.num / (q.den : Int)) == jsTrim s₀) = false
    rw [if_pos]
    rw [hd₀]
    simp [List.contains_cons]
  have hnum : ∀ v ∈ JSValue.vStr s₀ :: (ss'.map JSValue.vStr).take 99,
      isValidNumber v = true := by
    intro v hv
    have hv' : v ∈ (s₀ :: ss').map JSValue.vStr := by
      rcases hv with _ | hv
      · simp
      · have := List.mem_of_mem_take (by assumption)
        simp [this]
    obtain ⟨s, hs, rfl⟩ := List.mem_map.mp hv'
    obtain ⟨ds, hdd, hnee, hdigg⟩ := hspec s hs
    exact jsParseFloat_negIntLit hdd hnee hdigg
  unfold detectColumnType
  rw [if_neg hmapne]
  rw [hfil, List.map_cons, htake]
  rw [if_neg (by simp : ¬(JSValue.vStr s₀ :: (ss'.map JSValue.vStr).take 99 = []))]
  rw [if_neg (by simp [List.all_cons, hdate0] :
    ¬((JSValue.vStr s₀ :: (ss'.map JSValue.vStr).take 99).all isValidDate = true))]
  rw [if_neg (by simp [List.all_cons, hbool0] :
    ¬((JSValue.vStr s₀ :: (ss'.map JSValue.vStr).take 99).all isValidBoolean = true))]
  rw [if_neg (by simp [List.all_cons, hint0] :
    ¬((JSValue.vStr s₀ :: (ss'.map JSValue.vStr).take 99).all isValidInteger = true))]
  rw [if_pos (List.all_eq_true.mpr hnum)]

/-- Witness for C10: the single-value sample set `["-5"]` is typed FLOAT. -/
theorem detectColumnType_neg_int_witness :
    detectColumnType (["-5"].map JSValue.vStr) = .FLOAT :=
  detectColumnType_neg_int _ (by decide) (by decide)

/-- Every character produced by the replacement step is in the sanitizer's
allowed alphabet. -/
theorem step2_mem_allowed {l : List Char} {c : Char}
    (hc : c ∈ l.map fun d => if isAllowedChar d then d else '_') :
    isAllowedChar c = true := by
  obtain ⟨d, _, rfl⟩ := List.mem_map.mp hc
  cases h : isAllowedChar d with
  | true => simp [h]
  | false =>
    rw [if_neg (by simp [h])]
    decide

/-- Collapsing underscores only keeps characters of the input. -/
theorem collapse_subset : ∀ (l : List Char), collapseUnderscores l ⊆ l := by
  intro l
  induction l with
  | nil => simp [collapseUnderscores]
  | cons a t ih =>
    cases t with
    | nil => simp [collapseUnderscores]
    | cons b r =>
      simp only [collapseUnderscores]
      by_cases h : (a == '_' && b == '_') = true
      · rw [if_pos h]
        intro c hc
        exact List.mem_cons_of_mem a (ih hc)
      · rw [if_neg h]
        intro c hc
        rcases List.mem_cons.mp hc with rfl | hc'
        · exact List.mem_cons_self _ _
        · exact List.mem_cons_of_mem a (ih hc')

/-- Collapsing underscores never empties a non-empty list. -/
theorem collapse_ne_nil : ∀ {l : List Char}, l ≠ [] → collapseUnderscores l ≠ [] := by
  intro l
  induction l with
  | nil => exact fun h => absurd rfl h
  | cons a t ih =>
    intro _
    cases t with
    | nil => simp [collapseUnderscores]
    | cons b r =>
      simp only [collapseUnderscores]
      by_cases h : (a == '_' && b == '_') = true
      · rw [if_pos h]
        exact ih (by simp)
      · rw [if_neg h]
        simp

/-- Collapsing underscores preserves the head. -/
theorem collapse_head? : ∀ (l : List Char),
    (collapseUnderscores l).head? = l.head? := by
  intro l
  induction l with
  | nil => rfl
  | cons a t ih =>
    cases t with
    | nil => rfl
    | cons b r =>
      simp only [collapseUnderscores]
      by_cases h : (a == '_' && b == '_') = true
      · rw [if_pos h]
        obtain ⟨ha, hb⟩ : a = '_' ∧ b = '_' := by
          simpa [Bool.and_eq_true, beq_iff_eq] using h
        rw [ih]
        simp [ha, hb]
      · rw [if_neg h]
        rfl

/-- Collapsing underscores preserves the last element. -/
theorem collapse_getLast? : ∀ (l : List Char),
    (collapseUnderscores l).getLast? = l.getLast? := by
  intro l
  induction l with
  | nil => rfl
  | cons a t ih =>
    cases t with
    | nil => rfl
    | cons b r =>
      simp only [collapseUnderscores]
      by_cases h : (a == '_' && b == '_') = true
      · rw [if_pos h, ih, List.getLast?_cons_cons]
      · rw [if_neg h]
        obtain ⟨c, m, hm⟩ : ∃ c m, collapseUnderscores (b :: r) = c :: m := by
          cases hx : collapseUnderscores (b :: r) with
          | nil => exact absurd hx (collapse_ne_nil (by simp))
          | cons c m => exact ⟨c, m, rfl⟩
        rw [hm, List.getLast?_cons_cons, ← hm, ih, List.getLast?_cons_cons]

/-- After collapsing, no two adjacent underscores remain. -/
theorem collapse_chain' : ∀ (l : List Char),
    List.Chain' (fun a b => ¬(a = '_' ∧ b = '_')) (collapseUnderscores l) := by
  intro l
  induction l with
  | nil => simp [collapseUnderscores]
  | cons a t ih =>
    cases t with
    | nil => simp [collapseUnderscores]
    | cons b r =>
      simp only [collapseUnderscores]
      by_cases h : (a == '_' && b == '_') = true
      · rw [if_pos h]
        exact ih
      · rw [if_neg h]
        rw [List.chain'_cons']
        refine ⟨?_, ih⟩
        intro y hy
        rw [collapse_head? (b :: r)] at hy
        have hyb : b = y := by simpa using hy
        subst hyb
        simpa [Bool.and_eq_true, beq_iff_eq] using h

/-- A list with no adjacent underscores is a fixed point of collapsing. -/
theorem collapse_eq_self : ∀ {l : List Char},
    List.Chain' (fun a b => ¬(a = '_' ∧ b = '_')) l → collapseUnderscores l = l := by
  intro l
  induction l with
  | nil => exact fun _ => rfl
  | cons a t ih =>
    intro h
    cases t with
    | nil => rfl
    | cons b r =>
      obtain ⟨hab, hch⟩ := List.chain'_cons.mp h
      simp only [collapseUnderscores]
      rw [if_neg (by simpa [Bool.and_eq_true, beq_iff_eq] using hab), ih hch]

/-- Decomposition of a list into its right-stripped part and stripped tail. -/
theorem rdropWhile_append_rtakeWhile (p : Char → Bool) (l : List Char) :
    l.rdropWhile p ++ l.rtakeWhile p = l := by
  rw [List.rdropWhile, List.rtakeWhile, ← List.reverse_append,
    List.takeWhile_append_dropWhile, List.reverse_reverse]

/-- Allowed characters are fixed by lowercasing. -/
theorem allowed_fix_lower {c : Char} (h : isAllowedChar c = true) :
    jsToLowerChar c = c := by
  simp only [isAllowedChar, decide_eq_true_eq] at h
  exact jsToLowerChar_eq_self (by omega)

/-- The sanitizer's output is either the fallback `column` or a non-empty
normalized name: allowed alphabet, no leading/trailing underscore, no
doubled underscore. -/
theorem sanitize_output_cases (s : String) :
    sanitizeColumnName s = "column" ∨
    ∃ l4 : List Char, sanitizeColumnName s = ⟨l4⟩ ∧ l4 ≠ [] ∧
      (∀ c ∈ l4, isAllowedChar c = true) ∧
      l4.head? ≠ some '_' ∧ l4.getLast? ≠ some '_' ∧
      List.Chain' (fun a b => ¬(a = '_' ∧ b = '_')) l4 := by
  by_cases hc : collapseUnderscores
      ((((s.data.map jsToLowerChar).map fun d => if isAllowedChar d then d else '_').dropWhile
        (· == '_')).rdropWhile (· == '_')) = []
  · left
    simp only [sanitizeColumnName]
    rw [if_pos hc]
  · right
    refine ⟨_, ?_, hc, ?_, ?_, ?_, collapse_chain' _⟩
    · simp only [sanitizeColumnName]
      rw [if_neg hc]
    · intro c hcm
      have hc3 := collapse_subset _ hcm
      have hcm2 : c ∈ (((s.data.map jsToLowerChar).map
          fun d => if isAllowedChar d then d else '_').dropWhile (· == '_')) := by
        have hdec := rdropWhile_append_rtakeWhile (· == '_')
          (((s.data.map jsToLowerChar).map
            fun d => if isAllowedChar d then d else '_').dropWhile (· == '_'))
        rw [← hdec]
        exact List.mem_append.mpr (Or.inl hc3)
      have hsub := (List.dropWhile_suffix (l :=
        ((s.data.map jsToLowerChar).map fun d => if isAllowedChar d then d else '_'))
        (· == '_')).sublist.subset
      exact step2_mem_allowed (hsub hcm2)
    · intro hhead
      rw [collapse_head?] at hhead
      obtain ⟨t0, hl3⟩ : ∃ t0,
          ((((s.data.map jsToLowerChar).map
            fun d => if isAllowedChar d then d else '_').dropWhile
            (· == '_')).rdropWhile (· == '_')) = '_' :: t0 := by
        cases hx : ((((s.data.map jsToLowerChar).map
            fun d => if isAllowedChar d then d else '_').dropWhile
            (· == '_')).rdropWhile (· == '_')) with
        | nil => rw [hx] at hhead; cases hhead
        | cons c0 t0 =>
          rw [hx] at hhead
          obtain rfl : c0 = '_' := by simpa using hhead
          exact ⟨t0, rfl⟩
      have hdec := rdropWhile_append_rtakeWhile (· == '_')
        (((s.data.map jsToLowerChar).map
          fun d => if isAllowedChar d then d else '_').dropWhile (· == '_'))
      rw [hl3] at hdec
      have hh := List.head?_dropWhile_not (· == '_')
        ((s.data.map jsToLowerChar).map fun d => if isAllowedChar d then d else '_')
      rw [← hdec] at hh
      simp at hh
    · intro hlast
      rw [collapse_getLast?] at hlast
      have hne3 : ((((s.data.map jsToLowerChar).map
          fun d => if isAllowedChar d then d else '_').dropWhile
          (· == '_')).rdropWhile (· == '_')) ≠ [] := by
        intro hx
        rw [hx] at hlast
        cases hlast
      have hnp := List.rdropWhile_last_not (l :=
        (((s.data.map jsToLowerChar).map
          fun d => if isAllowedChar d then d else '_').dropWhile (· == '_')))
        (p := (· == '_')) hne3
      rw [List.getLast?_eq_getLast _ hne3] at hlast
      have : ((((s.data.map jsToLowerChar).map
          fun d => if isAllowedChar d then d else '_').dropWhile
          (· == '_')).rdropWhile (· == '_')).getLast hne3 = '_' := by
        simpa using hlast
      rw [this] at hnp
      simp at hnp

/-- A non-empty normalized name is a fixed point of the sanitizer. -/
theorem sanitize_fixed {l4 : List Char} (hne : l4 ≠ [])
    (hall : ∀ c ∈ l4, isAllowedChar c = true)
    (hhead : l4.head? ≠ some '_') (hlast : l4.getLast? ≠ some '_')
    (hch : List.Chain' (fun a b => ¬(a = '_' ∧ b = '_')) l4) :
    sanitizeColumnName ⟨l4⟩ = ⟨l4⟩ := by
  have hdata : (⟨l4⟩ : String).data = l4 := rfl
  have hm1 : l4.map jsToLowerChar = l4 := by
    rw [List.map_congr_left fun c hc => allowed_fix_lower (hall c hc)]
    simp
  have hm2 : l4.map (fun d => if isAllowedChar d then d else '_') = l4 := by
    rw [List.map_congr_left fun c hc => if_pos (hall c hc)]
    simp
  have hdrop : l4.dropWhile (· == '_') = l4 := by
    obtain ⟨c0, t0, rfl⟩ : ∃ c0 t0, l4 = c0 :: t0 := by
      cases l4 with
      | nil => exact absurd rfl hne
      | cons c0 t0 => exact ⟨c0, t0, rfl⟩
    rw [List.dropWhile_cons, if_neg]
    intro hcc
    exact hhead (by simpa using hcc)
  have hrdrop : l4.rdropWhile (· == '_') = l4 := by
    rw [List.rdropWhile_eq_self_iff]
    intro h hcc
    rw [List.getLast?_eq_getLast _ h] at hlast
    exact hlast (by simpa using hcc)
  have hcol : collapseUnderscores l4 = l4 := collapse_eq_self hch
  simp only [sanitizeColumnName, hdata, hm1, hm2, hdrop, hrdrop, hcol]
  rw [if_neg hne]

/-- C8 (confirmed): sanitizing the header `Full Name` yields exactly
`full_name`, and the sanitizer is idempotent on every input string. -/
theorem sanitizeColumnName_idem :
    sanitizeColumnName "Full Name" = "full_name" ∧
    ∀ s : String, sanitizeColumnName (sanitizeColumnName s) = sanitizeColumnName s := by
  refine ⟨by decide, ?_⟩
  intro s
  rcases sanitize_output_cases s with h | ⟨l4, hout, hne, hall, hhead, hlast, hch⟩
  · rw [h]
    decide
  · rw [hout]
    exact sanitize_fixed hne hall hhead hlast hch

example : sanitizeColumnName "Full Name" = "full_name" := by decide

example : detectColumnType [JSValue.vStr "2024-01-01"] = .DATE := by decide

example : detectColumnType [JSValue.vStr "-5"] = .FLOAT := by decide

example : detectColumnType [JSValue.vStr "5"] = .INTEGER := by decide
